import Mathlib

/-!
Verification of the numerical-differentiation error-analysis core of
`streamlit_app.py` (Math 374 Project 1).

The core consists of two pure operations:

* `calculate_errors(h_values, eps)` — for each step size `h`, computes the
  actual errors of the forward and central difference quotients of
  `f(x) = sin x` at `x0 = 1` against the exact derivative `cos 1`, together
  with the theoretical truncation bounds (`h/2`, `h^2/6`) and rounding
  bounds (`2*eps/h`, `eps/h`).
* `calculate_optimal_values(eps)` — closed-form optimal step sizes and
  minimum errors for both formulas.

The embedding below models the double-precision arithmetic of the source by
exact real arithmetic (`ℝ`, `Real.sin`, `Real.cos`, `Real.sqrt`,
`Real.rpow`), and numpy arrays by lists; each definition mirrors the
corresponding Python function line by line.
-/

namespace NumDiff

/-- One row of the results dictionary built by `calculate_errors`: the fields
`h, err1, err2, trunc1, trunc2, round1, round2` hold, for a single step size
`h`, the step size, the two actual errors, the two truncation bounds and the
two rounding bounds (suffix `1` = forward difference, `2` = central
difference), exactly as appended by the loop body in the source. -/
structure ErrorRecord where
  h : ℝ
  err1 : ℝ
  err2 : ℝ
  trunc1 : ℝ
  trunc2 : ℝ
  round1 : ℝ
  round2 : ℝ

/-- The body of the `for h in h_values` loop of `calculate_errors`
(src/streamlit_app.py lines 108–121): `f_plus = sin(1+h)`,
`approx1 = (f_plus - sin 1)/h`, `f_minus = sin(1-h)`,
`approx2 = (f_plus - f_minus)/(2h)`, compared against `exact = cos 1`;
`np.sin(1)` is recomputed inside the loop, as in the source. -/
noncomputable def errorRecord (eps h : ℝ) : ErrorRecord :=
  let exactD := Real.cos 1
  let f_plus := Real.sin (1 + h)
  let approx1 := (f_plus - Real.sin 1) / h
  let f_minus := Real.sin (1 - h)
  let approx2 := (f_plus - f_minus) / (2 * h)
  { h := h
    err1 := |approx1 - exactD|
    err2 := |approx2 - exactD|
    trunc1 := h / 2
    trunc2 := h ^ 2 / 6
    round1 := 2 * eps / h
    round2 := eps / h }

/-- Embedding of `calculate_errors` (src/streamlit_app.py lines 81–122): one
`ErrorRecord` per entry of `h_values`, in order. The source performs no
validation of `h_values` or `eps`; the surrounding `try/except` can only
trigger on a raised exception, and none of the arithmetic raises (numpy
float arithmetic is total), so the function is total here as well. -/
noncomputable def calculate_errors (h_values : List ℝ) (eps : ℝ) :
    List ErrorRecord :=
  h_values.map (errorRecord eps)

/-- Variant of the loop body with `f0 = sin 1` hoisted out of the loop,
taken as a parameter instead of being recomputed per `h`. -/
noncomputable def errorRecordHoisted (f0 eps h : ℝ) : ErrorRecord :=
  let exactD := Real.cos 1
  let f_plus := Real.sin (1 + h)
  let approx1 := (f_plus - f0) / h
  let f_minus := Real.sin (1 - h)
  let approx2 := (f_plus - f_minus) / (2 * h)
  { h := h
    err1 := |approx1 - exactD|
    err2 := |approx2 - exactD|
    trunc1 := h / 2
    trunc2 := h ^ 2 / 6
    round1 := 2 * eps / h
    round2 := eps / h }

/-- Variant of `calculate_errors` that evaluates `f0 = f(x0) = sin 1` once
before the loop, as the spec's suggested pure optimization. -/
noncomputable def calculate_errors_hoisted (h_values : List ℝ) (eps : ℝ) :
    List ErrorRecord :=
  let f0 := Real.sin 1
  h_values.map (errorRecordHoisted f0 eps)

/-- One optimal point `(h_opt, min_error)` for one formula, as in the inner
dictionaries returned by `calculate_optimal_values`. -/
structure OptimalPoint where
  h_opt : ℝ
  min_error : ℝ

/-- The pair of optimal points returned by `calculate_optimal_values`. -/
structure OptimalValues where
  forward : OptimalPoint
  central : OptimalPoint

/-- Embedding of `calculate_optimal_values` (src/streamlit_app.py lines
163–182): `h_opt = (2*eps)**0.5`, `min_error = np.sqrt(2*eps)/2` for the
forward formula and `h_opt = (3*eps)**(1/3)`, `min_error = (3*eps)**(2/3)/6`
for the central formula; real powers model Python float exponentiation. The
source performs no check on `eps`. -/
noncomputable def calculate_optimal_values (eps : ℝ) : OptimalValues :=
  { forward :=
      { h_opt := (2 * eps) ^ (0.5 : ℝ)
        min_error := Real.sqrt (2 * eps) / 2 }
    central :=
      { h_opt := (3 * eps) ^ ((1 : ℝ) / 3)
        min_error := (3 * eps) ^ ((2 : ℝ) / 3) / 6 } }

/- Basic unfolding lemmas for the record fields. -/

theorem errorRecord_h (eps h : ℝ) : (errorRecord eps h).h = h := rfl

theorem errorRecord_err1 (eps h : ℝ) :
    (errorRecord eps h).err1 =
      |(Real.sin (1 + h) - Real.sin 1) / h - Real.cos 1| := rfl

theorem errorRecord_err2 (eps h : ℝ) :
    (errorRecord eps h).err2 =
      |(Real.sin (1 + h) - Real.sin (1 - h)) / (2 * h) - Real.cos 1| := rfl

theorem errorRecord_trunc1 (eps h : ℝ) :
    (errorRecord eps h).trunc1 = h / 2 := rfl

theorem errorRecord_trunc2 (eps h : ℝ) :
    (errorRecord eps h).trunc2 = h ^ 2 / 6 := rfl

theorem errorRecord_round1 (eps h : ℝ) :
    (errorRecord eps h).round1 = 2 * eps / h := rfl

theorem errorRecord_round2 (eps h : ℝ) :
    (errorRecord eps h).round2 = eps / h := rfl

theorem length_calculate_errors (hs : List ℝ) (eps : ℝ) :
    (calculate_errors hs eps).length = hs.length :=
  List.length_map hs (errorRecord eps)

theorem getElem?_calculate_errors (hs : List ℝ) (eps : ℝ) (i : ℕ) :
    (calculate_errors hs eps)[i]? = (hs[i]?).map (errorRecord eps) :=
  List.getElem?_map (errorRecord eps) hs i

/-- Claim C1: for every step size `h > 0` appearing (at position `i`) in the
input sequence and every `eps > 0`, the record produced by
`calculate_errors` contains the actual errors
`err_fwd = |(sin(1+h) - sin 1)/h - cos 1|` and
`err_ctr = |(sin(1+h) - sin(1-h))/(2h) - cos 1|`, the absolute differences
between the difference quotients of `f = sin` at `x0 = 1` and the exact
derivative `cos 1`. -/
theorem calculate_errors_actual_errors (hs : List ℝ) (eps h : ℝ) (i : ℕ)
    (hget : hs[i]? = some h) (hpos : 0 < h) (heps : 0 < eps) :
    ∃ r : ErrorRecord, (calculate_errors hs eps)[i]? = some r ∧
      r.err1 = |(Real.sin (1 + h) - Real.sin 1) / h - Real.cos 1| ∧
      r.err2 = |(Real.sin (1 + h) - Real.sin (1 - h)) / (2 * h) - Real.cos 1| :=
  ⟨errorRecord eps h, by rw [getElem?_calculate_errors, hget]; rfl, rfl, rfl⟩

theorem calculate_errors_actual_errors_witness :
    ∃ r : ErrorRecord, (calculate_errors [(1 : ℝ)] 1)[0]? = some r ∧
      r.err1 = |(Real.sin (1 + 1) - Real.sin 1) / 1 - Real.cos 1| ∧
      r.err2 = |(Real.sin (1 + 1) - Real.sin (1 - 1)) / (2 * 1) - Real.cos 1| :=
  calculate_errors_actual_errors [1] 1 1 0 rfl (by norm_num) (by norm_num)

/-- Claim C2: for every step size `h > 0` appearing (at position `i`) in the
input sequence and every `eps > 0`, the record produced by
`calculate_errors` contains exactly the four theoretical bounds
`trunc_fwd = h/2`, `trunc_ctr = h^2/6`, `round_fwd = 2*eps/h` and
`round_ctr = eps/h`. -/
theorem calculate_errors_bounds (hs : List ℝ) (eps h : ℝ) (i : ℕ)
    (hget : hs[i]? = some h) (hpos : 0 < h) (heps : 0 < eps) :
    ∃ r : ErrorRecord, (calculate_errors hs eps)[i]? = some r ∧
      r.trunc1 = h / 2 ∧ r.trunc2 = h ^ 2 / 6 ∧
      r.round1 = 2 * eps / h ∧ r.round2 = eps / h :=
  ⟨errorRecord eps h, by rw [getElem?_calculate_errors, hget]; rfl,
    rfl, rfl, rfl, rfl⟩

theorem calculate_errors_bounds_witness :
    ∃ r : ErrorRecord, (calculate_errors [(1 : ℝ)] 1)[0]? = some r ∧
      r.trunc1 = 1 / 2 ∧ r.trunc2 = 1 ^ 2 / 6 ∧
      r.round1 = 2 * 1 / 1 ∧ r.round2 = 1 / 1 :=
  calculate_errors_bounds [1] 1 1 0 rfl (by norm_num) (by norm_num)

/-- Claim C5: for every valid input (all `h > 0`, `eps > 0`), the series
returned by `calculate_errors` has exactly one record per input entry, its
length equals the input length, and the record at position `i` is the record
of the input entry at position `i` (order preserved, no reordering); in
particular its `h` field is that input entry. -/
theorem calculate_errors_length_order (hs : List ℝ) (eps : ℝ)
    (hvalid : ∀ h ∈ hs, 0 < h) (heps : 0 < eps) :
    (calculate_errors hs eps).length = hs.length ∧
    (∀ i : ℕ, (calculate_errors hs eps)[i]? = (hs[i]?).map (errorRecord eps)) ∧
    ∀ (i : ℕ) (h : ℝ), hs[i]? = some h →
      ∃ r : ErrorRecord, (calculate_errors hs eps)[i]? = some r ∧ r.h = h :=
  ⟨length_calculate_errors hs eps,
    fun i => getElem?_calculate_errors hs eps i,
    fun i h hget =>
      ⟨errorRecord eps h, by rw [getElem?_calculate_errors, hget]; rfl, rfl⟩⟩

theorem calculate_errors_length_order_witness :
    (calculate_errors [(1 : ℝ), 2] 1).length = ([(1 : ℝ), 2]).length ∧
    (∀ i : ℕ, (calculate_errors [(1 : ℝ), 2] 1)[i]? =
      (([(1 : ℝ), 2])[i]?).map (errorRecord 1)) ∧
    ∀ (i : ℕ) (h : ℝ), ([(1 : ℝ), 2])[i]? = some h →
      ∃ r : ErrorRecord, (calculate_errors [(1 : ℝ), 2] 1)[i]? = some r ∧
        r.h = h :=
  calculate_errors_length_order [1, 2] 1
    (by intro h hmem; simp at hmem; rcases hmem with rfl | rfl <;> norm_num)
    (by norm_num)

/-- Claim C6: for every `h > 0` at position `i` of the input and every
`eps > 0`, the forward rounding bound in the record produced by
`calculate_errors` is exactly twice the central rounding bound. -/
theorem round_fwd_eq_two_mul_round_ctr (hs : List ℝ) (eps h : ℝ) (i : ℕ)
    (hget : hs[i]? = some h) (hpos : 0 < h) (heps : 0 < eps) :
    ∃ r : ErrorRecord, (calculate_errors hs eps)[i]? = some r ∧
      r.round1 = 2 * r.round2 :=
  ⟨errorRecord eps h, by rw [getElem?_calculate_errors, hget]; rfl, by
    show 2 * eps / h = 2 * (eps / h)
    ring⟩

theorem round_fwd_eq_two_mul_round_ctr_witness :
    ∃ r : ErrorRecord, (calculate_errors [(1 : ℝ)] 1)[0]? = some r ∧
      r.round1 = 2 * r.round2 :=
  round_fwd_eq_two_mul_round_ctr [1] 1 1 0 rfl (by norm_num) (by norm_num)

/-- Claim C3: for every `eps > 0`, `calculate_optimal_values` returns exactly
the closed forms `h_opt_fwd = sqrt(2*eps)`, `min_error_fwd = sqrt(2*eps)/2`,
`h_opt_ctr = (3*eps)^(1/3)`, `min_error_ctr = (3*eps)^(2/3)/6`, and these
satisfy the inverse checks `h_opt_fwd^2 = 2*eps` and `h_opt_ctr^3 = 3*eps`.
The definition of `calculate_optimal_values` is a direct algebraic
expression in `eps` alone — no iteration and no step-size sequence occurs
in it. -/
theorem calculate_optimal_values_closed_forms (eps : ℝ) (heps : 0 < eps) :
    (calculate_optimal_values eps).forward.h_opt = Real.sqrt (2 * eps) ∧
    (calculate_optimal_values eps).forward.min_error = Real.sqrt (2 * eps) / 2 ∧
    (calculate_optimal_values eps).central.h_opt = (3 * eps) ^ ((1 : ℝ) / 3) ∧
    (calculate_optimal_values eps).central.min_error =
      (3 * eps) ^ ((2 : ℝ) / 3) / 6 ∧
    (calculate_optimal_values eps).forward.h_opt ^ 2 = 2 * eps ∧
    (calculate_optimal_values eps).central.h_opt ^ 3 = 3 * eps := by
  have h2 : (0 : ℝ) ≤ 2 * eps := by linarith
  have h3 : (0 : ℝ) ≤ 3 * eps := by linarith
  refine ⟨?_, rfl, rfl, rfl, ?_, ?_⟩
  · show (2 * eps) ^ (0.5 : ℝ) = Real.sqrt (2 * eps)
    rw [Real.sqrt_eq_rpow]
    norm_num
  · show ((2 * eps) ^ (0.5 : ℝ)) ^ 2 = 2 * eps
    rw [← Real.rpow_natCast ((2 * eps) ^ (0.5 : ℝ)) 2, ← Real.rpow_mul h2]
    norm_num
  · show ((3 * eps) ^ ((1 : ℝ) / 3)) ^ 3 = 3 * eps
    rw [← Real.rpow_natCast ((3 * eps) ^ ((1 : ℝ) / 3)) 3, ← Real.rpow_mul h3]
    norm_num

theorem calculate_optimal_values_closed_forms_witness :
    (calculate_optimal_values 2).forward.h_opt = Real.sqrt (2 * 2) ∧
    (calculate_optimal_values 2).forward.min_error = Real.sqrt (2 * 2) / 2 ∧
    (calculate_optimal_values 2).central.h_opt = (3 * 2) ^ ((1 : ℝ) / 3) ∧
    (calculate_optimal_values 2).central.min_error =
      (3 * 2) ^ ((2 : ℝ) / 3) / 6 ∧
    (calculate_optimal_values 2).forward.h_opt ^ 2 = 2 * 2 ∧
    (calculate_optimal_values 2).central.h_opt ^ 3 = 3 * 2 :=
  calculate_optimal_values_closed_forms 2 (by norm_num)

/-- Claim C7: for a fixed `eps > 0` and step sizes `0 < h1 < h2` at
positions `i` and `j` of the input, the records produced by
`calculate_errors` have both rounding bounds strictly larger at `h1` than at
`h2`, and both truncation bounds strictly smaller at `h1` than at `h2`. -/
theorem bounds_monotonic (hs : List ℝ) (eps h1 h2 : ℝ) (i j : ℕ)
    (hi : hs[i]? = some h1) (hj : hs[j]? = some h2)
    (h1pos : 0 < h1) (hlt : h1 < h2) (heps : 0 < eps) :
    ∃ r1 r2 : ErrorRecord, (calculate_errors hs eps)[i]? = some r1 ∧
      (calculate_errors hs eps)[j]? = some r2 ∧
      r2.round1 < r1.round1 ∧ r2.round2 < r1.round2 ∧
      r1.trunc1 < r2.trunc1 ∧ r1.trunc2 < r2.trunc2 := by
  refine ⟨errorRecord eps h1, errorRecord eps h2,
    by rw [getElem?_calculate_errors, hi]; rfl,
    by rw [getElem?_calculate_errors, hj]; rfl, ?_, ?_, ?_, ?_⟩
  · show 2 * eps / h2 < 2 * eps / h1
    exact div_lt_div_of_pos_left (by linarith) h1pos hlt
  · show eps / h2 < eps / h1
    exact div_lt_div_of_pos_left heps h1pos hlt
  · show h1 / 2 < h2 / 2
    linarith
  · show h1 ^ 2 / 6 < h2 ^ 2 / 6
    nlinarith

theorem bounds_monotonic_witness :
    ∃ r1 r2 : ErrorRecord, (calculate_errors [(1 : ℝ), 2] 1)[0]? = some r1 ∧
      (calculate_errors [(1 : ℝ), 2] 1)[1]? = some r2 ∧
      r2.round1 < r1.round1 ∧ r2.round2 < r1.round2 ∧
      r1.trunc1 < r2.trunc1 ∧ r1.trunc2 < r2.trunc2 :=
  bounds_monotonic [1, 2] 1 1 2 0 1 rfl rfl (by norm_num) (by norm_num)
    (by norm_num)

/-- Claim C8: for every `eps > 0`, `calculate_errors` on the empty step-size
sequence succeeds and returns the empty series. -/
theorem calculate_errors_empty (eps : ℝ) (heps : 0 < eps) :
    calculate_errors [] eps = [] := rfl

theorem calculate_errors_empty_witness :
    calculate_errors [] (1 : ℝ) = [] :=
  calculate_errors_empty 1 (by norm_num)

/-- Claim C9: evaluating `f0 = sin 1` once before the loop versus
recomputing it for each `h` is observably equivalent: for every step-size
sequence and every `eps`, `calculate_errors` (which, like the source,
recomputes `sin 1` in the loop body) returns the same series as the hoisted
variant. -/
theorem hoisting_no_observable_effect (hs : List ℝ) (eps : ℝ) :
    calculate_errors hs eps = calculate_errors_hoisted hs eps := rfl

/-- Claim C4 (code behaviour at the claimed failing inputs): the source
performs no validation. `calculate_errors` on the sequence `[1e-5, -1e-3]`
with `eps = 2.22e-16` returns a full two-record series — the record for the
negative step even carries a negative "rounding bound" — instead of failing
with `InvalidInput`; and `calculate_optimal_values 0` returns a value
(`h_opt = 0` for the forward formula) instead of failing. -/
theorem no_invalid_input_rejection :
    (calculate_errors [(1e-5 : ℝ), -1e-3] (2.22e-16)).length = 2 ∧
    (∃ r : ErrorRecord,
      (calculate_errors [(1e-5 : ℝ), -1e-3] (2.22e-16))[1]? = some r ∧
      r.round1 < 0) ∧
    (calculate_optimal_values 0).forward.h_opt = 0 := by
  refine ⟨rfl, ⟨errorRecord (2.22e-16) (-1e-3), rfl, ?_⟩, ?_⟩
  · show 2 * (2.22e-16 : ℝ) / (-1e-3) < 0
    norm_num
  · show ((2 : ℝ) * 0) ^ (0.5 : ℝ) = 0
    rw [mul_zero, Real.zero_rpow (by norm_num)]

/-- Claim C10: for `eps = 0`, `calculate_optimal_values` returns a result
without any error: both optimal points degenerate to `h_opt = 0` and
`min_error = 0`, since `(2*0)^0.5 = 0` and `(3*0)^(1/3) = 0`; no check on
`eps` is performed. -/
theorem calculate_optimal_values_eps_zero :
    (calculate_optimal_values 0).forward.h_opt = 0 ∧
    (calculate_optimal_values 0).forward.min_error = 0 ∧
    (calculate_optimal_values 0).central.h_opt = 0 ∧
    (calculate_optimal_values 0).central.min_error = 0 := by
  refine ⟨?_, ?_, ?_, ?_⟩
  · show ((2 : ℝ) * 0) ^ (0.5 : ℝ) = 0
    rw [mul_zero, Real.zero_rpow (by norm_num)]
  · show Real.sqrt ((2 : ℝ) * 0) / 2 = 0
    rw [mul_zero, Real.sqrt_zero, zero_div]
  · show ((3 : ℝ) * 0) ^ ((1 : ℝ) / 3) = 0
    rw [mul_zero, Real.zero_rpow (by norm_num)]
  · show ((3 : ℝ) * 0) ^ ((2 : ℝ) / 3) / 6 = 0
    rw [mul_zero, Real.zero_rpow (by norm_num), zero_div]

end NumDiff
